import Mathlib

/-!
Verification of the HTTP/stdio MCP bridge of `xcode-mcp-bridge`.

The repository contains two near-identical bridge variants:
* `src/xcode-mcp.ts` — `startMcpBridge({host, port, path})`;
* the bridge half of `xcode-types.ts` — `startMcpBridge({host, port, path, saveEndpoint})`.

The definitions below are a shallow embedding of those two files: the pure
routing logic of the HTTP request handler, the startup sequence, the shutdown
(`cleanup`) sequence and the session-registry life cycle are translated
directly from the TypeScript sources.  External library calls
(`randomUUID`, the MCP SDK client/server, node `http`) are modelled at their
interface: `randomUUID` as an injective fresh-identifier generator, the SDK
client as a pair of functions, and side effects as explicit action lists.
-/

namespace XcodeBridge

/-- A JavaScript number as far as the port validation inspects it: either an
integer or the `NaN` produced by `Number` on a non-numeric string.
(Non-integer finite doubles behave exactly like `nan` under
`Number.isInteger`, so one constructor covers every non-integer value.) -/
inductive JsNum where
  | int : Int → JsNum
  | nan : JsNum
deriving DecidableEq, Repr

/-- `Number.isInteger(port)`. -/
def isIntegerJs : JsNum → Bool
  | .int _ => true
  | .nan => false

/-- JavaScript `<` against an integer literal; every comparison with `NaN`
is false. -/
def jsLtLit : JsNum → Int → Bool
  | .int k, m => decide (k < m)
  | .nan, _ => false

/-- JavaScript `>` against an integer literal; every comparison with `NaN`
is false. -/
def jsGtLit : JsNum → Int → Bool
  | .int k, m => decide (m < k)
  | .nan, _ => false

/-- The guard of `startMcpBridge` (identical in both variants):
`!Number.isInteger(options.port) || options.port < 1 || options.port > 65535`
throws before anything else happens. -/
def portRejected (port : JsNum) : Bool :=
  !(isIntegerJs port) || jsLtLit port 1 || jsGtLit port 65535

/-- `value.startsWith('/')`, computed on the decoded characters. -/
def startsWithSlash (value : String) : Bool :=
  match value.data with
  | [] => false
  | c :: _ => c == '/'

/-- `normalizePath` from both bridge files. -/
def normalizePath (value : String) : String :=
  if startsWithSlash value then value else "/" ++ value

/-- The bridge configuration (`McpBridgeStartOptions` without the
variant-specific `saveEndpoint` flag). -/
structure BridgeConfig where
  host : String
  port : Nat
  path : String
deriving DecidableEq, Repr

/-- The `endpoint.toString()` value built at startup from the options. -/
def endpointUrl (cfg : BridgeConfig) : String :=
  "http://" ++ cfg.host ++ ":" ++ toString cfg.port ++ normalizePath cfg.path

/-- One registered session (`TransportSession`).  The SDK `Server` and
`StreamableHTTPServerTransport` objects are identified by the number of the
initialization handshake that created them, which is all the routing logic
observes about them. -/
structure Session where
  serverId : Nat
deriving DecidableEq, Repr

/-- The parsed JSON body of a POST, as far as the handler inspects it:
`isInitializeRequest(body)` either holds or does not, and an absent /
empty body (`undefined` from `parseJsonBody`) is never an initialize
request. -/
inductive McpBody where
  | initializeReq
  | otherReq
  | empty
deriving DecidableEq, Repr

/-- The SDK predicate `isInitializeRequest`, at its interface:  true exactly
on a parsed initialize request, false on any other body and on `undefined`. -/
def isInitializeRequest : McpBody → Bool
  | .initializeReq => true
  | _ => false

/-- An incoming HTTP request as the handler sees it: the resolved pathname
(`new URL(req.url, endpoint).pathname`; `none` models a request whose
`req.url` is missing), the raw method, the `mcp-session-id` header value and
the body. -/
structure HttpRequest where
  path : Option String
  method : Option String
  sessionHeader : Option String
  body : McpBody
deriving DecidableEq, Repr

/-- A response body written by the handler: plain text via `res.end(text)`,
the serialized JSON-RPC error envelope
`JSON.stringify({jsonrpc, error: {code, message}, id: null})`, or the
serialized health payload `JSON.stringify({ok: true, endpoint})`. -/
inductive ResponseBody where
  | text (s : String)
  | jsonRpcError (code : Int) (message : String)
  | healthJson (endpoint : String)
deriving DecidableEq, Repr

/-- `true` exactly on the structured JSON-RPC error envelope shape. -/
def isErrorEnvelope : ResponseBody → Bool
  | .jsonRpcError _ _ => true
  | _ => false

/-- The outcome of one run of the request handler: a direct response, a
forward of a POST body to an active session transport
(`sessions.get(sessionId)!.transport.handleRequest(req, res, body)`), a
forward of a GET/DELETE stream request
(`transport.handleRequest(req, res)`), or the creation of a new session for
an initialize request. -/
inductive HandlerResult where
  | respond (status : Nat) (body : ResponseBody)
  | forwardPost (sid : String) (body : McpBody)
  | forwardStream (sid : String)
  | newSession (body : McpBody)
deriving DecidableEq, Repr

/-- Whether the handler handed the request to a session (existing or newly
created) rather than answering it itself. -/
def isRoutedToSession : HandlerResult → Bool
  | .respond _ _ => false
  | _ => true

/-- `res.statusCode` of a direct response. -/
def statusOf : HandlerResult → Option Nat
  | .respond s _ => some s
  | _ => none

/-- `req.method?.toUpperCase()`, modelled character-wise over the decoded
string. -/
def jsToUpper (s : String) : String :=
  String.mk (s.data.map Char.toUpper)

/-- JavaScript truthiness of the `sessionId` local: `undefined` and the
empty string are falsy. -/
def sidTruthy : Option String → Bool
  | some s => !(s == "")
  | none => false

/-- `sessions.has(sid)` over the association-list model of the JS `Map`. -/
def hasSession (sessions : List (String × Session)) (sid : String) : Bool :=
  sessions.any (fun e => e.1 == sid)

/-- `sessions.get(sid)` over the association-list model of the JS `Map`. -/
def getSession (sessions : List (String × Session)) (sid : String) : Option Session :=
  (sessions.find? (fun e => e.1 == sid)).map (fun e => e.2)

/-- `sessions.set(sid, v)`: JS `Map.set` overwrites an existing key in place
and otherwise appends in insertion order. -/
def mapSet (sessions : List (String × Session)) (sid : String) (v : Session) :
    List (String × Session) :=
  if sessions.any (fun e => e.1 == sid) then
    sessions.map (fun e => if e.1 == sid then (sid, v) else e)
  else
    sessions ++ [(sid, v)]

/-- `sessions.delete(sid)`. -/
def mapDelete (sessions : List (String × Session)) (sid : String) :
    List (String × Session) :=
  sessions.filter (fun e => !(e.1 == sid))

/-- The HTTP request handler passed to `http.createServer`, identical in both
bridge variants: missing-URL check, `/health` short circuit, endpoint-path
check, then demultiplexing on the method, the `mcp-session-id` header and the
body. -/
def handle (cfg : BridgeConfig) (sessions : List (String × Session))
    (req : HttpRequest) : HandlerResult :=
  match req.path with
  | none => .respond 400 (.text "Missing URL")
  | some p =>
    if p == "/health" then
      .respond 200 (.healthJson (endpointUrl cfg))
    else if !(p == normalizePath cfg.path) then
      .respond 404 (.text "Not found")
    else
      let method := (req.method.map jsToUpper).getD ""
      let sid := req.sessionHeader
      if method == "POST" then
        if sidTruthy sid && hasSession sessions (sid.getD "") then
          .forwardPost (sid.getD "") req.body
        else if !(sidTruthy sid) && isInitializeRequest req.body then
          .newSession req.body
        else
          .respond 400 (.jsonRpcError (-32000) "Bad Request: missing valid MCP session")
      else if method == "GET" || method == "DELETE" then
        if !(sidTruthy sid) || !(hasSession sessions (sid.getD "")) then
          .respond 400 (.text "Invalid or missing MCP session ID")
        else
          .forwardStream (sid.getD "")
      else
        .respond 405 (.text "Method not allowed")

/-- The `catch` block of the handler: an uncaught error yields a 500 with the
`-32603` envelope, but only when no response has started
(`!res.headersSent`). -/
def catchInternalError (headersSent : Bool) (message : String) :
    Option (Nat × ResponseBody) :=
  if headersSent then none
  else some (500, .jsonRpcError (-32603) message)

/-! ## Per-session protocol server (`createSessionServer`) -/

/-- The shared upstream MCP `Client`, at its interface: the two operations
the bridge exposes to sessions. -/
structure UpstreamClient (P R Q S : Type) where
  listTools : P → R
  callTool : Q → S

/-- A per-session `Server`, reduced to its two request handlers. -/
structure SessionServer (P R Q S : Type) where
  onListTools : P → R
  onCallTool : Q → S

/-- `createSessionServer(upstream)`: the `tools/list` handler returns
`await upstream.listTools(request.params)` and the `tools/call` handler
returns `await upstream.callTool(request.params)`, both unchanged. -/
def createSessionServer (u : UpstreamClient P R Q S) : SessionServer P R Q S :=
  { onListTools := fun params => u.listTools params
    onCallTool := fun params => u.callTool params }

/-! ## Process state and the asynchronous upstream error handler -/

/-- The mutable state of one bridge process that the HTTP handler can see:
the session registry and the log written by `upstream.onerror`. -/
structure BridgeProcessState where
  sessions : List (String × Session)
  upstreamErrorLog : List String
deriving DecidableEq, Repr

/-- `upstream.onerror`: logs the message to stderr and does nothing else —
in particular it leaves the registry untouched and does not tear down
anything. -/
def onUpstreamError (st : BridgeProcessState) (message : String) :
    BridgeProcessState :=
  { st with upstreamErrorLog := st.upstreamErrorLog ++ [message] }

/-- The handler applied to a process state. -/
def handleHttp (cfg : BridgeConfig) (st : BridgeProcessState)
    (req : HttpRequest) : HandlerResult :=
  handle cfg st.sessions req

/-! ## Startup sequences of the two variants -/

/-- An observable side effect of `startMcpBridge` before the listener is up. -/
inductive StartupAction where
  | connectUpstream
  | closeUpstreamOnFailure
  | closeUpstreamTransportOnFailure
  | saveEndpointToConfig
  | createHttpServer
  | bindListener
deriving DecidableEq, Repr

/-- The outcome of `startMcpBridge`. -/
inductive StartupOutcome where
  | invalidPort
  | connectFailed (message : String)
  | listening
deriving DecidableEq, Repr

/-- The diagnostic built in the `catch` around `upstream.connect` in
`src/xcode-mcp.ts` (lines joined with a newline). -/
def connectDiagnostic (details : String) : String :=
  "Unable to connect to Xcode via `xcrun mcpbridge`.\n" ++
  "Check the following and try again:\n" ++
  "1) Xcode 26.3 or later is installed.\n" ++
  "2) Xcode is open.\n" ++
  "3) `xcode-select -p` points to your Xcode developer directory.\n" ++
  "Original error: " ++ details

/-- Startup of the `src/xcode-mcp.ts` variant.  `connectError` is the result
of `upstream.connect`: `some details` when the connect rejects.  The port
guard throws before anything runs; a connect failure closes the client and
its transport and rethrows wrapped in the diagnostic; otherwise the HTTP
server is created and the listener bound. -/
def startupMcp (port : JsNum) (connectError : Option String) :
    StartupOutcome × List StartupAction :=
  if portRejected port then (.invalidPort, [])
  else
    match connectError with
    | some details =>
        (.connectFailed (connectDiagnostic details),
         [.connectUpstream, .closeUpstreamOnFailure, .closeUpstreamTransportOnFailure])
    | none =>
        (.listening, [.connectUpstream, .createHttpServer, .bindListener])

/-- Startup of the `xcode-types.ts` variant: same port guard, but
`await upstream.connect(upstreamTransport)` has no surrounding `try`, so a
connect failure propagates unchanged; on success the endpoint is optionally
persisted before the server is created. -/
def startupTypes (port : JsNum) (saveEndpoint : Bool)
    (connectError : Option String) : StartupOutcome × List StartupAction :=
  if portRejected port then (.invalidPort, [])
  else
    match connectError with
    | some details => (.connectFailed details, [.connectUpstream])
    | none =>
        (.listening,
         [.connectUpstream]
           ++ (if saveEndpoint then [.saveEndpointToConfig] else [])
           ++ [.createHttpServer, .bindListener])

/-! ## Shutdown (`cleanup`) sequences of the two variants -/

/-- An observable close action performed by `cleanup`. -/
inductive CleanupAction where
  | closeSessionServer (serverId : Nat)
  | closeSessionTransport (serverId : Nat)
  | clearRegistry
  | closeHttpListener
  | closeUpstreamClient
  | closeUpstreamStdio
deriving DecidableEq, Repr

/-- Actions that close one session's resources. -/
def isSessionCloseAction : CleanupAction → Bool
  | .closeSessionServer _ => true
  | .closeSessionTransport _ => true
  | _ => false

/-- `cleanup` of the `src/xcode-mcp.ts` variant: for each registered session
only `sessionServer.close()` is called (its transport is not closed
directly), then the registry is cleared, the HTTP listener closed, and the
upstream client and its stdio transport closed. -/
def cleanupMcp (sessions : List (String × Session)) : List CleanupAction :=
  sessions.map (fun e => CleanupAction.closeSessionServer e.2.serverId)
    ++ [.clearRegistry, .closeHttpListener, .closeUpstreamClient, .closeUpstreamStdio]

/-- `cleanup` of the `xcode-types.ts` variant: for each registered session
`transport.close()` then `sessionServer.close()`, then the registry is
cleared, the listener closed, and the upstream client and stdio transport
closed. -/
def cleanupTypes (sessions : List (String × Session)) : List CleanupAction :=
  (sessions.map (fun e =>
      [CleanupAction.closeSessionTransport e.2.serverId,
       CleanupAction.closeSessionServer e.2.serverId])).flatten
    ++ [.clearRegistry, .closeHttpListener, .closeUpstreamClient, .closeUpstreamStdio]

/-! ## Session-registry life cycle

The initialization path of the handler mints a session id with
`randomUUID()`, registers the `(server, transport)` pair in
`onsessioninitialized`, and removes it again in `transport.onclose`.
`randomUUID` is modelled as an injective generator of fresh identifiers
driven by a counter — freshness is the guarantee of `randomUUID` that the
registry relies on.  The `issued` and `closed` fields are history variables
recording every id ever issued and every registered session that closed. -/

/-- The identifier minted for the `k`-th initialization handshake.  The
choice of encoding is irrelevant; only injectivity and nonemptiness are
used. -/
def freshId (k : Nat) : String :=
  String.mk (List.replicate (k + 1) 's')

/-- The bridge state relevant to the session life cycle, with history
variables. -/
structure RegistryState where
  nextFresh : Nat
  sessions : List (String × Session)
  issued : List String
  closed : List String
deriving DecidableEq, Repr

/-- A session-life-cycle event: a completed initialization handshake
(`onsessioninitialized` registering the freshly minted id), or a transport
close for a given id (`transport.onclose` after DELETE, client disconnect or
an internal close). -/
inductive BridgeEvent where
  | initSession
  | closeSession (sid : String)
deriving DecidableEq, Repr

/-- The state at process start: empty registry, nothing issued. -/
def initialState : RegistryState :=
  { nextFresh := 0, sessions := [], issued := [], closed := [] }

/-- One step of the life cycle.  `initSession` mints `freshId nextFresh`,
registers it (`sessions.set` from `onsessioninitialized`) and records it as
issued; the protocol-server instance created by `createSessionServer` for
this handshake is tagged with the same counter value.  `closeSession sid`
performs `sessions.delete(sid)` (`transport.onclose`); the `closed` history
records it only when the id was actually registered. -/
def step (st : RegistryState) : BridgeEvent → RegistryState
  | .initSession =>
      { nextFresh := st.nextFresh + 1
        sessions := mapSet st.sessions (freshId st.nextFresh) ⟨st.nextFresh⟩
        issued := freshId st.nextFresh :: st.issued
        closed := st.closed }
  | .closeSession sid =>
      if st.sessions.any (fun e => e.1 == sid) then
        { st with
            sessions := mapDelete st.sessions sid
            closed := sid :: st.closed }
      else st

/-- The state after a sequence of life-cycle events. -/
def run (tr : List BridgeEvent) : RegistryState :=
  tr.foldl step initialState

/-- The keys of the registry. -/
def regKeys (sessions : List (String × Session)) : List String :=
  sessions.map (fun e => e.1)

/-- The invariant of the session registry, with history variables `issued`
(every id ever minted) and `closed` (every registered session that closed). -/
structure RegInv (st : RegistryState) : Prop where
  issuedNodup : st.issued.Nodup
  keysNodup : (regKeys st.sessions).Nodup
  keysIssued : ∀ s ∈ regKeys st.sessions, s ∈ st.issued
  closedIssued : ∀ s ∈ st.closed, s ∈ st.issued
  closedNotLive : ∀ s ∈ st.closed, s ∉ regKeys st.sessions
  issuedBound : ∀ s ∈ st.issued, ∃ k, k < st.nextFresh ∧ s = freshId k

/-! ## Basic lemmas about the fresh-id generator and the map model -/

theorem freshId_injective {a b : Nat} (h : freshId a = freshId b) : a = b := by
  have hl : (freshId a).length = (freshId b).length := by rw [h]
  simpa [freshId, String.length] using hl

theorem freshId_ne_empty (k : Nat) : freshId k ≠ "" := by
  intro h
  have hl : (freshId k).length = ("" : String).length := by rw [h]
  simp [freshId, String.length] at hl

theorem hasSession_iff_mem (sessions : List (String × Session)) (sid : String) :
    hasSession sessions sid = true ↔ sid ∈ regKeys sessions := by
  simp only [hasSession, List.any_eq_true, regKeys, List.mem_map, beq_iff_eq]

theorem mapSet_of_not_mem {sessions : List (String × Session)} {sid : String}
    (h : sid ∉ regKeys sessions) (v : Session) :
    mapSet sessions sid v = sessions ++ [(sid, v)] := by
  have hh : hasSession sessions sid = false := by
    cases hfb : hasSession sessions sid
    · rfl
    · exact absurd ((hasSession_iff_mem _ _).1 hfb) h
  simp only [mapSet, hasSession] at hh ⊢
  rw [hh]
  simp

theorem mem_regKeys_mapDelete {sessions : List (String × Session)}
    {sid s : String} (h : s ∈ regKeys (mapDelete sessions sid)) :
    s ∈ regKeys sessions ∧ s ≠ sid := by
  simp only [regKeys, mapDelete, List.mem_map] at h
  obtain ⟨e, he, rfl⟩ := h
  have := List.of_mem_filter he
  simp only [Bool.not_eq_true', beq_eq_false_iff_ne, ne_eq] at this
  exact ⟨List.mem_map_of_mem _ (List.mem_of_mem_filter he), this⟩

theorem regKeys_mapDelete_eq (sessions : List (String × Session)) (sid : String) :
    regKeys (mapDelete sessions sid) = (regKeys sessions).filter (fun k => !(k == sid)) := by
  induction sessions with
  | nil => rfl
  | cons e t ih =>
      simp only [regKeys, mapDelete, List.filter, List.map] at ih ⊢
      cases hb : (e.1 == sid) <;> simp [hb, ih]

theorem regKeys_mapDelete_nodup {sessions : List (String × Session)}
    (h : (regKeys sessions).Nodup) (sid : String) :
    (regKeys (mapDelete sessions sid)).Nodup := by
  rw [regKeys_mapDelete_eq]
  exact h.filter _

/-! ## The registry invariant and its preservation -/

theorem regInv_initial : RegInv initialState := by
  constructor <;> simp [initialState, regKeys]

theorem fresh_not_issued {st : RegistryState} (inv : RegInv st) :
    freshId st.nextFresh ∉ st.issued := by
  intro hmem
  obtain ⟨k, hk, he⟩ := inv.issuedBound _ hmem
  exact absurd (freshId_injective he.symm) (Nat.ne_of_lt hk)

theorem regKeys_append_single (l : List (String × Session)) (sid : String)
    (v : Session) : regKeys (l ++ [(sid, v)]) = regKeys l ++ [sid] := by
  simp [regKeys]

theorem regInv_step {st : RegistryState} (inv : RegInv st) (e : BridgeEvent) :
    RegInv (step st e) := by
  cases e with
  | initSession =>
      have hfresh : freshId st.nextFresh ∉ st.issued := fresh_not_issued inv
      have hfreshKeys : freshId st.nextFresh ∉ regKeys st.sessions := fun hmem =>
        hfresh (inv.keysIssued _ hmem)
      have hset := mapSet_of_not_mem hfreshKeys (⟨st.nextFresh⟩ : Session)
      have hkeys :
          regKeys (step st BridgeEvent.initSession).sessions
            = regKeys st.sessions ++ [freshId st.nextFresh] := by
        show regKeys (mapSet st.sessions (freshId st.nextFresh) ⟨st.nextFresh⟩)
            = regKeys st.sessions ++ [freshId st.nextFresh]
        rw [hset, regKeys_append_single]
      constructor
      · exact List.nodup_cons.2 ⟨hfresh, inv.issuedNodup⟩
      · rw [hkeys, List.nodup_append]
        refine ⟨inv.keysNodup, List.nodup_singleton _, ?_⟩
        intro a ha hb
        rw [List.mem_singleton] at hb
        subst hb
        exact hfreshKeys ha
      · intro s hs
        rw [hkeys] at hs
        show s ∈ freshId st.nextFresh :: st.issued
        rcases List.mem_append.1 hs with hs | hs
        · exact List.mem_cons_of_mem _ (inv.keysIssued _ hs)
        · rw [List.mem_singleton] at hs
          exact hs ▸ List.mem_cons_self _ _
      · intro s hs
        exact List.mem_cons_of_mem _ (inv.closedIssued _ hs)
      · intro s hs hmem
        rw [hkeys] at hmem
        rcases List.mem_append.1 hmem with hmem | hmem
        · exact inv.closedNotLive _ hs hmem
        · rw [List.mem_singleton] at hmem
          exact hfresh (hmem ▸ inv.closedIssued _ hs)
      · intro s hs
        rcases List.mem_cons.1 hs with rfl | hs
        · exact ⟨st.nextFresh, Nat.lt_succ_self _, rfl⟩
        · obtain ⟨k, hk, he⟩ := inv.issuedBound _ hs
          exact ⟨k, Nat.lt_succ_of_lt hk, he⟩
  | closeSession sid =>
      by_cases hany : st.sessions.any (fun e => e.1 == sid) = true
      · have hstep : step st (BridgeEvent.closeSession sid)
            = { st with
                  sessions := mapDelete st.sessions sid
                  closed := sid :: st.closed } := by
          simp [step, hany]
        rw [hstep]
        constructor
        · exact inv.issuedNodup
        · exact regKeys_mapDelete_nodup inv.keysNodup sid
        · intro s hs
          exact inv.keysIssued _ (mem_regKeys_mapDelete hs).1
        · intro s hs
          rcases List.mem_cons.1 hs with rfl | hs
          · exact inv.keysIssued _ ((hasSession_iff_mem _ _).1 hany)
          · exact inv.closedIssued _ hs
        · intro s hs hmem
          obtain ⟨hmem', hne⟩ := mem_regKeys_mapDelete hmem
          rcases List.mem_cons.1 hs with rfl | hs
          · exact hne rfl
          · exact inv.closedNotLive _ hs hmem'
        · exact inv.issuedBound
      · have hstep : step st (BridgeEvent.closeSession sid) = st := by
          simp [step, hany]
        rw [hstep]
        exact inv

theorem regInv_foldl {st : RegistryState} (inv : RegInv st)
    (tr : List BridgeEvent) : RegInv (tr.foldl step st) := by
  induction tr generalizing st with
  | nil => exact inv
  | cons e t ih => exact ih (regInv_step inv e)

theorem regInv_run (tr : List BridgeEvent) : RegInv (run tr) :=
  regInv_foldl regInv_initial tr

/-! ## History monotonicity and persistence lemmas -/

theorem issued_step_extends (st : RegistryState) (e : BridgeEvent) :
    ∃ extra, (step st e).issued = extra ++ st.issued := by
  cases e with
  | initSession => exact ⟨[freshId st.nextFresh], rfl⟩
  | closeSession sid =>
      simp only [step]
      split
      · exact ⟨[], rfl⟩
      · exact ⟨[], rfl⟩

theorem closed_step_extends (st : RegistryState) (e : BridgeEvent) :
    ∃ extra, (step st e).closed = extra ++ st.closed := by
  cases e with
  | initSession => exact ⟨[], rfl⟩
  | closeSession sid =>
      simp only [step]
      split
      · exact ⟨[sid], rfl⟩
      · exact ⟨[], rfl⟩

theorem issued_foldl_extends (l : List BridgeEvent) (st : RegistryState) :
    ∃ extra, (l.foldl step st).issued = extra ++ st.issued := by
  induction l generalizing st with
  | nil => exact ⟨[], rfl⟩
  | cons e t ih =>
      obtain ⟨e₁, he₁⟩ := issued_step_extends st e
      obtain ⟨e₂, he₂⟩ := ih (step st e)
      exact ⟨e₂ ++ e₁, by simp [List.foldl_cons, he₂, he₁]⟩

theorem closed_foldl_extends (l : List BridgeEvent) (st : RegistryState) :
    ∃ extra, (l.foldl step st).closed = extra ++ st.closed := by
  induction l generalizing st with
  | nil => exact ⟨[], rfl⟩
  | cons e t ih =>
      obtain ⟨e₁, he₁⟩ := closed_step_extends st e
      obtain ⟨e₂, he₂⟩ := ih (step st e)
      exact ⟨e₂ ++ e₁, by simp [List.foldl_cons, he₂, he₁]⟩

theorem run_append (tr ext : List BridgeEvent) :
    run (tr ++ ext) = ext.foldl step (run tr) := by
  simp [run, List.foldl_append]

theorem mem_closed_run_append {tr : List BridgeEvent} {sid : String}
    (h : sid ∈ (run tr).closed) (ext : List BridgeEvent) :
    sid ∈ (run (tr ++ ext)).closed := by
  rw [run_append]
  obtain ⟨extra, hextra⟩ := closed_foldl_extends ext (run tr)
  rw [hextra]
  exact List.mem_append_right _ h

/-- A registered key survives `mapSet` (whichever branch `Map.set` takes:
an in-place overwrite rewrites the first component to the same key). -/
theorem mem_regKeys_mapSet {sessions : List (String × Session)} {s : String}
    (h : s ∈ regKeys sessions) (sid : String) (v : Session) :
    s ∈ regKeys (mapSet sessions sid v) := by
  simp only [mapSet]
  split
  · simp only [regKeys, List.map_map, List.mem_map] at h ⊢
    obtain ⟨e, he, rfl⟩ := h
    refine ⟨e, he, ?_⟩
    simp only [Function.comp]
    split
    · rename_i hb
      exact (beq_iff_eq.1 hb).symm
    · rfl
  · rw [regKeys_append_single]
    exact List.mem_append_left _ h

/-- Between its initialization and its close, a session id stays in the
registry: no event other than its own `closeSession` removes it. -/
theorem key_persists {st : RegistryState} {sid : String}
    (h : sid ∈ regKeys st.sessions) (e : BridgeEvent)
    (hne : e ≠ BridgeEvent.closeSession sid) :
    sid ∈ regKeys (step st e).sessions := by
  cases e with
  | initSession =>
      exact mem_regKeys_mapSet h _ _
  | closeSession other =>
      have hos : other ≠ sid := fun hcontra => hne (by rw [hcontra])
      simp only [step]
      split
      · rw [regKeys_mapDelete_eq, List.mem_filter]
        exact ⟨h, by simp [Ne.symm hos]⟩
      · exact h

/-- With nodup keys, a key determines its session: the registry maps each
live id to exactly one `(server, transport)` pair. -/
theorem nodup_keys_unique {l : List (String × Session)}
    (hnd : (regKeys l).Nodup) {k : String} {v v' : Session}
    (h : (k, v) ∈ l) (h' : (k, v') ∈ l) : v = v' := by
  induction l with
  | nil => cases h
  | cons e t ih =>
      simp only [regKeys, List.map_cons, List.nodup_cons] at hnd
      rcases List.mem_cons.1 h with he | ht
      · rcases List.mem_cons.1 h' with he' | ht'
        · exact congrArg Prod.snd (he.trans he'.symm)
        · exfalso
          apply hnd.1
          rw [← he]
          exact List.mem_map_of_mem (fun e => e.1) ht'
      · rcases List.mem_cons.1 h' with he' | ht'
        · exfalso
          apply hnd.1
          rw [← he']
          exact List.mem_map_of_mem (fun e => e.1) ht
        · exact ih hnd.2 ht ht'

theorem getSession_mem {l : List (String × Session)} {sid : String}
    {v : Session} (h : getSession l sid = some v) : (sid, v) ∈ l := by
  simp only [getSession, Option.map_eq_some'] at h
  obtain ⟨e, he, rfl⟩ := h
  have hp := List.find?_some he
  have hm := List.mem_of_find?_eq_some he
  rw [beq_iff_eq] at hp
  rw [← hp]
  exact hm

/-! ## Handler evaluation lemmas -/

theorem handle_post_active (cfg : BridgeConfig)
    (hpath : normalizePath cfg.path ≠ "/health")
    (sessions : List (String × Session)) (sid : String) (hsid : sid ≠ "")
    (hhas : hasSession sessions sid = true) (body : McpBody) :
    handle cfg sessions ⟨some (normalizePath cfg.path), some "POST", some sid, body⟩
      = .forwardPost sid body := by
  have hup : (jsToUpper "POST" == "POST") = true := by decide
  simp [handle, hpath, sidTruthy, hsid, hhas, hup]

theorem handle_post_reject (cfg : BridgeConfig)
    (hpath : normalizePath cfg.path ≠ "/health")
    (sessions : List (String × Session)) (hdr : Option String) (body : McpBody)
    (hact : ¬(sidTruthy hdr = true ∧ hasSession sessions (hdr.getD "") = true))
    (hinit : ¬(sidTruthy hdr = false ∧ isInitializeRequest body = true)) :
    handle cfg sessions ⟨some (normalizePath cfg.path), some "POST", hdr, body⟩
      = .respond 400 (.jsonRpcError (-32000) "Bad Request: missing valid MCP session") := by
  have hup : (jsToUpper "POST" == "POST") = true := by decide
  cases ht : sidTruthy hdr with
  | true =>
      have hh : hasSession sessions (hdr.getD "") = false := by
        cases hhb : hasSession sessions (hdr.getD "")
        · rfl
        · exact absurd ⟨ht, hhb⟩ hact
      simp [handle, hpath, hup, ht, hh]
  | false =>
      have hi : isInitializeRequest body = false := by
        cases hib : isInitializeRequest body
        · rfl
        · exact absurd ⟨ht, hib⟩ hinit
      simp [handle, hpath, hup, ht, hi]

theorem handle_stream_reject (cfg : BridgeConfig)
    (hpath : normalizePath cfg.path ≠ "/health")
    (sessions : List (String × Session)) (m : String)
    (hm : m = "GET" ∨ m = "DELETE") (hdr : Option String) (body : McpBody)
    (hact : ¬(sidTruthy hdr = true ∧ hasSession sessions (hdr.getD "") = true)) :
    handle cfg sessions ⟨some (normalizePath cfg.path), some m, hdr, body⟩
      = .respond 400 (.text "Invalid or missing MCP session ID") := by
  have hcond : (!(sidTruthy hdr) || !(hasSession sessions (hdr.getD ""))) = true := by
    cases ht : sidTruthy hdr with
    | true =>
        have hh : hasSession sessions (hdr.getD "") = false := by
          cases hhb : hasSession sessions (hdr.getD "")
          · rfl
          · exact absurd ⟨ht, hhb⟩ hact
        simp [hh]
    | false => simp
  rcases hm with rfl | rfl
  · have h1 : (jsToUpper "GET" == "POST") = false := by decide
    have h2 : (jsToUpper "GET" == "GET") = true := by decide
    simp [handle, hpath, h1, h2, hcond]
  · have h1 : (jsToUpper "DELETE" == "POST") = false := by decide
    have h2 : (jsToUpper "DELETE" == "GET") = false := by decide
    have h3 : (jsToUpper "DELETE" == "DELETE") = true := by decide
    simp [handle, hpath, h1, h2, h3, hcond]

theorem handle_stream_active (cfg : BridgeConfig)
    (hpath : normalizePath cfg.path ≠ "/health")
    (sessions : List (String × Session)) (m : String)
    (hm : m = "GET" ∨ m = "DELETE") (sid : String) (hsid : sid ≠ "")
    (hhas : hasSession sessions sid = true) (body : McpBody) :
    handle cfg sessions ⟨some (normalizePath cfg.path), some m, some sid, body⟩
      = .forwardStream sid := by
  rcases hm with rfl | rfl
  · have h1 : (jsToUpper "GET" == "POST") = false := by decide
    have h2 : (jsToUpper "GET" == "GET") = true := by decide
    simp [handle, hpath, h1, h2, sidTruthy, hsid, hhas]
  · have h1 : (jsToUpper "DELETE" == "POST") = false := by decide
    have h2 : (jsToUpper "DELETE" == "GET") = false := by decide
    have h3 : (jsToUpper "DELETE" == "DELETE") = true := by decide
    simp [handle, hpath, h1, h2, h3, sidTruthy, hsid, hhas]

theorem handle_health (cfg : BridgeConfig)
    (sessions : List (String × Session)) (m : Option String)
    (hdr : Option String) (body : McpBody) :
    handle cfg sessions ⟨some "/health", m, hdr, body⟩
      = .respond 200 (.healthJson (endpointUrl cfg)) := by
  simp [handle]

/-- Facts about a closed session id that survive any continuation of the
trace: it is not live, and it is a generator-minted (hence nonempty) id. -/
theorem closed_facts {tr : List BridgeEvent} {sid : String}
    (hclosed : sid ∈ (run tr).closed) (ext : List BridgeEvent) :
    hasSession (run (tr ++ ext)).sessions sid = false ∧ sid ≠ "" := by
  have hmem := mem_closed_run_append hclosed ext
  have inv := regInv_run (tr ++ ext)
  have hnot := inv.closedNotLive _ hmem
  refine ⟨?_, ?_⟩
  · cases hb : hasSession (run (tr ++ ext)).sessions sid
    · rfl
    · exact absurd ((hasSession_iff_mem _ _).1 hb) hnot
  · obtain ⟨k, -, rfl⟩ := inv.issuedBound _ (inv.closedIssued _ hmem)
    exact freshId_ne_empty k

theorem sessions_foldl_onUpstreamError (errs : List String)
    (st : BridgeProcessState) :
    (errs.foldl onUpstreamError st).sessions = st.sessions := by
  induction errs generalizing st with
  | nil => rfl
  | cons e t ih => exact ih (onUpstreamError st e)

/-! ## Claim theorems -/

/-- Claim C1: in any reachable registry state, a POST carrying an active
session id is routed to that session's transport with the body unchanged;
the registry maps the id to exactly one protocol-server instance; and the
per-session server created by `createSessionServer` returns the shared
backend client's `listTools`/`callTool` responses verbatim, so a
`tools/list` through any session equals a direct backend `listTools`
call. -/
theorem C1_active_post_routed_to_its_server {P R Q S : Type}
    (cfg : BridgeConfig) (hpath : normalizePath cfg.path ≠ "/health")
    (tr : List BridgeEvent) (sid : String) (sess : Session)
    (hlive : getSession (run tr).sessions sid = some sess) (body : McpBody)
    (u : UpstreamClient P R Q S) (p : P) (q : Q) :
    handle cfg (run tr).sessions
        ⟨some (normalizePath cfg.path), some "POST", some sid, body⟩
      = .forwardPost sid body
    ∧ (∀ sess', (sid, sess') ∈ (run tr).sessions → sess' = sess)
    ∧ (createSessionServer u).onListTools p = u.listTools p
    ∧ (createSessionServer u).onCallTool q = u.callTool q := by
  have inv := regInv_run tr
  have hmem := getSession_mem hlive
  have hkey : sid ∈ regKeys (run tr).sessions :=
    List.mem_map_of_mem (fun e => e.1) hmem
  have hsid : sid ≠ "" := by
    obtain ⟨k, -, rfl⟩ := inv.issuedBound _ (inv.keysIssued _ hkey)
    exact freshId_ne_empty k
  refine ⟨handle_post_active cfg hpath _ sid hsid
      ((hasSession_iff_mem _ _).2 hkey) body, ?_, rfl, rfl⟩
  intro sess' hmem'
  exact nodup_keys_unique inv.keysNodup hmem' hmem

/-- Witness for C1 on a concrete trace of one initialization handshake. -/
theorem C1_witness :
    handle ⟨"127.0.0.1", 8080, "/mcp"⟩ (run [BridgeEvent.initSession]).sessions
        ⟨some (normalizePath "/mcp"), some "POST", some (freshId 0), McpBody.otherReq⟩
      = .forwardPost (freshId 0) McpBody.otherReq
    ∧ (createSessionServer (⟨fun n => n + 1, fun n => n * 2⟩ :
        UpstreamClient Nat Nat Nat Nat)).onListTools 3
      = (⟨fun n => n + 1, fun n => n * 2⟩ :
        UpstreamClient Nat Nat Nat Nat).listTools 3 := by
  have h := C1_active_post_routed_to_its_server
    (⟨"127.0.0.1", 8080, "/mcp"⟩ : BridgeConfig) (by decide)
    [BridgeEvent.initSession] (freshId 0) ⟨0⟩ (by decide) McpBody.otherReq
    (⟨fun n => n + 1, fun n => n * 2⟩ : UpstreamClient Nat Nat Nat Nat) 3 5
  exact ⟨h.1, h.2.2.1⟩

/-- Claim C2: over any sequence of handshakes, issued session ids are
pairwise distinct; each live id has exactly one registry entry; a live id
stays registered under every event except its own close; and once a session
has closed, its id is neither registered nor issued again in any
continuation of the trace. -/
theorem C2_session_id_lifecycle (tr ext : List BridgeEvent) :
    (run tr).issued.Nodup
    ∧ (∀ sid ∈ regKeys (run tr).sessions,
        (regKeys (run tr).sessions).count sid = 1)
    ∧ (∀ sid, sid ∈ regKeys (run tr).sessions →
        ∀ e, e ≠ BridgeEvent.closeSession sid →
          sid ∈ regKeys (run (tr ++ [e])).sessions)
    ∧ (∀ sid, sid ∈ (run tr).closed →
        sid ∉ regKeys (run (tr ++ ext)).sessions
        ∧ (run (tr ++ ext)).issued.count sid = (run tr).issued.count sid) := by
  have invtr := regInv_run tr
  have invext := regInv_run (tr ++ ext)
  refine ⟨invtr.issuedNodup, ?_, ?_, ?_⟩
  · intro sid hsid
    exact List.count_eq_one_of_mem invtr.keysNodup hsid
  · intro sid hsid e hne
    rw [run_append]
    exact key_persists hsid e hne
  · intro sid hsid
    have hmem := mem_closed_run_append hsid ext
    refine ⟨invext.closedNotLive _ hmem, ?_⟩
    obtain ⟨extra, hex⟩ := issued_foldl_extends ext (run tr)
    have hexr : (run (tr ++ ext)).issued = extra ++ (run tr).issued := by
      rw [run_append]; exact hex
    have hnd : (extra ++ (run tr).issued).Nodup := by
      rw [← hexr]; exact invext.issuedNodup
    have hsin : sid ∈ (run tr).issued := invtr.closedIssued _ hsid
    have hnotex : sid ∉ extra := by
      rw [List.nodup_append] at hnd
      exact fun hmem' => hnd.2.2 hmem' hsin
    rw [hexr, List.count_append, List.count_eq_zero.2 hnotex, Nat.zero_add]

/-- Witness for C2 on a concrete trace: after the first session closes, an
extension with a new handshake neither re-registers nor re-issues its id. -/
theorem C2_witness :
    freshId 0
      ∉ regKeys (run ([BridgeEvent.initSession,
          BridgeEvent.closeSession (freshId 0)]
            ++ [BridgeEvent.initSession])).sessions := by
  have h := C2_session_id_lifecycle
    [BridgeEvent.initSession, BridgeEvent.closeSession (freshId 0)]
    [BridgeEvent.initSession]
  exact (h.2.2.2 (freshId 0) (by decide)).1

/-- Claim C3: after a session has closed, every later POST, GET or DELETE
to the endpoint path bearing its former id is answered HTTP 400 and is
never handed to any session transport or protocol server. -/
theorem C3_closed_session_never_routed (cfg : BridgeConfig)
    (hpath : normalizePath cfg.path ≠ "/health")
    (tr ext : List BridgeEvent) (sid : String)
    (hclosed : sid ∈ (run tr).closed) (m : String)
    (hm : m = "POST" ∨ m = "GET" ∨ m = "DELETE") (body : McpBody) :
    (∃ b, handle cfg (run (tr ++ ext)).sessions
        ⟨some (normalizePath cfg.path), some m, some sid, body⟩
      = .respond 400 b)
    ∧ isRoutedToSession (handle cfg (run (tr ++ ext)).sessions
        ⟨some (normalizePath cfg.path), some m, some sid, body⟩) = false := by
  obtain ⟨hhs, hsid⟩ := closed_facts hclosed ext
  have hact : ¬(sidTruthy (some sid) = true
      ∧ hasSession (run (tr ++ ext)).sessions ((some sid).getD "") = true) := by
    rintro ⟨-, hc⟩
    rw [Option.getD_some] at hc
    rw [hc] at hhs
    exact absurd hhs (by decide)
  have hinit : ¬(sidTruthy (some sid) = false
      ∧ isInitializeRequest body = true) := by
    rintro ⟨hf, -⟩
    rw [show sidTruthy (some sid) = !(sid == "") from rfl] at hf
    simp [hsid] at hf
  rcases hm with rfl | hm'
  · rw [handle_post_reject cfg hpath _ _ body hact hinit]
    exact ⟨⟨_, rfl⟩, rfl⟩
  · rw [handle_stream_reject cfg hpath _ m hm' _ body hact]
    exact ⟨⟨_, rfl⟩, rfl⟩

/-- Witness for C3 on a concrete trace: the closed first session id is
rejected on a later DELETE. -/
theorem C3_witness :
    (∃ b, handle ⟨"127.0.0.1", 8080, "/mcp"⟩
        (run ([BridgeEvent.initSession, BridgeEvent.closeSession (freshId 0)]
          ++ [BridgeEvent.initSession])).sessions
        ⟨some (normalizePath "/mcp"), some "DELETE", some (freshId 0), McpBody.empty⟩
      = .respond 400 b)
    ∧ isRoutedToSession (handle ⟨"127.0.0.1", 8080, "/mcp"⟩
        (run ([BridgeEvent.initSession, BridgeEvent.closeSession (freshId 0)]
          ++ [BridgeEvent.initSession])).sessions
        ⟨some (normalizePath "/mcp"), some "DELETE", some (freshId 0), McpBody.empty⟩)
      = false :=
  C3_closed_session_never_routed ⟨"127.0.0.1", 8080, "/mcp"⟩ (by decide)
    [BridgeEvent.initSession, BridgeEvent.closeSession (freshId 0)]
    [BridgeEvent.initSession] (freshId 0) (by decide) "DELETE"
    (Or.inr (Or.inr rfl)) McpBody.empty

/-- Claim C4: a POST to the endpoint path that neither carries a session id
matching an active session nor is a session-less initialization request is
answered HTTP 400 with the JSON-RPC error envelope of code -32000. -/
theorem C4_post_without_session_gets_envelope (cfg : BridgeConfig)
    (hpath : normalizePath cfg.path ≠ "/health")
    (sessions : List (String × Session)) (hdr : Option String) (body : McpBody)
    (hact : ¬(sidTruthy hdr = true ∧ hasSession sessions (hdr.getD "") = true))
    (hinit : ¬(sidTruthy hdr = false ∧ isInitializeRequest body = true)) :
    handle cfg sessions ⟨some (normalizePath cfg.path), some "POST", hdr, body⟩
      = .respond 400
          (.jsonRpcError (-32000) "Bad Request: missing valid MCP session") :=
  handle_post_reject cfg hpath sessions hdr body hact hinit

/-- Witness for C4: a POST with no session header and a non-initialization
body. -/
theorem C4_witness :
    handle ⟨"127.0.0.1", 8080, "/mcp"⟩ []
        ⟨some (normalizePath "/mcp"), some "POST", none, McpBody.otherReq⟩
      = .respond 400
          (.jsonRpcError (-32000) "Bad Request: missing valid MCP session") :=
  C4_post_without_session_gets_envelope ⟨"127.0.0.1", 8080, "/mcp"⟩ (by decide)
    [] none McpBody.otherReq (by decide) (by decide)

set_option maxRecDepth 4096 in
/-- Claim C5 is falsified by the `xcode-types.ts` variant: at the concrete
connect error `boom`, that variant raises the error unchanged — not the
multi-point diagnostic the claim requires of both variants, which the
`xcode-mcp.ts` variant does produce at the same input. -/
theorem C5_counterexample :
    (startupTypes (.int 8080) true (some "boom")).1
      = StartupOutcome.connectFailed "boom"
    ∧ (startupMcp (.int 8080) (some "boom")).1
      = StartupOutcome.connectFailed (connectDiagnostic "boom")
    ∧ "boom" ≠ connectDiagnostic "boom" := by
  refine ⟨rfl, rfl, by decide⟩

/-- Claim C5 as amended: on a backend connect failure with a valid port,
both variants abort startup with exactly one connect attempt and without
ever binding the HTTP listener; the `xcode-mcp.ts` variant raises the error
wrapped in the diagnostic enumerating the likely causes, while the
`xcode-types.ts` variant propagates the original connect error unchanged. -/
theorem C5_amended_connect_failure_fatal (port : JsNum)
    (hport : portRejected port = false) (details : String) (save : Bool) :
    startupMcp port (some details)
      = (.connectFailed (connectDiagnostic details),
          [.connectUpstream, .closeUpstreamOnFailure,
           .closeUpstreamTransportOnFailure])
    ∧ startupTypes port save (some details)
      = (.connectFailed details, [.connectUpstream])
    ∧ StartupAction.bindListener ∉ (startupMcp port (some details)).2
    ∧ StartupAction.bindListener ∉ (startupTypes port save (some details)).2
    ∧ ((startupMcp port (some details)).2).count .connectUpstream = 1
    ∧ ((startupTypes port save (some details)).2).count .connectUpstream = 1 := by
  refine ⟨?_, ?_, ?_, ?_, ?_, ?_⟩ <;> simp [startupMcp, startupTypes, hport]

/-- Witness for the amended C5 at a concrete valid port and error text. -/
theorem C5_amended_witness :
    startupMcp (.int 8080) (some "boom")
      = (.connectFailed (connectDiagnostic "boom"),
          [.connectUpstream, .closeUpstreamOnFailure,
           .closeUpstreamTransportOnFailure])
    ∧ startupTypes (.int 8080) true (some "boom")
      = (.connectFailed "boom", [.connectUpstream]) := by
  have h := C5_amended_connect_failure_fatal (.int 8080) (by decide) "boom" true
  exact ⟨h.1, h.2.1⟩

/-- Claim C6 is falsified by the `src/xcode-mcp.ts` variant: with one
registered session, its `cleanup` emits no transport-close action for that
session — only the protocol server is closed directly. -/
theorem C6_counterexample :
    CleanupAction.closeSessionTransport 0 ∉ cleanupMcp [(freshId 0, ⟨0⟩)]
    ∧ CleanupAction.closeSessionServer 0 ∈ cleanupMcp [(freshId 0, ⟨0⟩)] := by
  refine ⟨by decide, by decide⟩

/-- Claim C6 as amended: on shutdown the `xcode-types.ts` variant closes
each registered session's transport and protocol server, while the
`src/xcode-mcp.ts` variant closes each session's protocol server only; in
both variants every per-session close precedes clearing the registry,
closing the HTTP listener, and — only after all of that — closing the
backend client and then its stdio transport. -/
theorem C6_amended_cleanup_order (sessions : List (String × Session))
    (e : String × Session) (he : e ∈ sessions) :
    CleanupAction.closeSessionServer e.2.serverId ∈ cleanupMcp sessions
    ∧ CleanupAction.closeSessionTransport e.2.serverId ∈ cleanupTypes sessions
    ∧ CleanupAction.closeSessionServer e.2.serverId ∈ cleanupTypes sessions
    ∧ (∃ pre, cleanupMcp sessions
        = pre ++ [.clearRegistry, .closeHttpListener,
                  .closeUpstreamClient, .closeUpstreamStdio]
        ∧ ∀ a ∈ pre, isSessionCloseAction a = true)
    ∧ (∃ pre, cleanupTypes sessions
        = pre ++ [.clearRegistry, .closeHttpListener,
                  .closeUpstreamClient, .closeUpstreamStdio]
        ∧ ∀ a ∈ pre, isSessionCloseAction a = true) := by
  refine ⟨?_, ?_, ?_, ⟨_, rfl, ?_⟩, ⟨_, rfl, ?_⟩⟩
  · exact List.mem_append_left _
      (List.mem_map_of_mem (fun e => CleanupAction.closeSessionServer e.2.serverId) he)
  · refine List.mem_append_left _ ?_
    rw [List.mem_flatten]
    exact ⟨_, List.mem_map_of_mem _ he, List.mem_cons_self _ _⟩
  · refine List.mem_append_left _ ?_
    rw [List.mem_flatten]
    exact ⟨_, List.mem_map_of_mem _ he,
      List.mem_cons_of_mem _ (List.mem_cons_self _ _)⟩
  · intro a ha
    obtain ⟨x, -, rfl⟩ := List.mem_map.1 ha
    rfl
  · intro a ha
    rw [List.mem_flatten] at ha
    obtain ⟨l, hl, hal⟩ := ha
    obtain ⟨x, -, rfl⟩ := List.mem_map.1 hl
    rcases List.mem_cons.1 hal with rfl | hal
    · rfl
    · rcases List.mem_cons.1 hal with rfl | hal
      · rfl
      · cases hal

/-- Witness for the amended C6 with one registered session. -/
theorem C6_amended_witness :
    CleanupAction.closeSessionServer 7 ∈ cleanupMcp [(freshId 0, ⟨7⟩)]
    ∧ CleanupAction.closeSessionTransport 7 ∈ cleanupTypes [(freshId 0, ⟨7⟩)] := by
  have h := C6_amended_cleanup_order [(freshId 0, ⟨7⟩)] (freshId 0, ⟨7⟩)
    (List.mem_singleton.2 rfl)
  exact ⟨h.1, h.2.1⟩

/-- Claim C7 is falsified at a concrete input: a GET to the endpoint path
with no session header is rejected with HTTP 400 whose body is the plain
text `Invalid or missing MCP session ID`, not the JSON-RPC error
envelope. -/
theorem C7_counterexample :
    handle ⟨"127.0.0.1", 8080, "/mcp"⟩ []
        ⟨some "/mcp", some "GET", none, McpBody.empty⟩
      = .respond 400 (.text "Invalid or missing MCP session ID")
    ∧ isErrorEnvelope (.text "Invalid or missing MCP session ID") = false := by
  refine ⟨by decide, rfl⟩

/-- Claim C7 as amended: POST session-routing rejections are HTTP 400 with
the fixed JSON-RPC error envelope of code -32000, and uncaught internal
errors are HTTP 500 with the -32603 envelope when no response has started
(and nothing when one has); but GET/DELETE session-routing rejections are
HTTP 400 with a plain-text body, not the envelope. -/
theorem C7_amended_error_envelopes (cfg : BridgeConfig)
    (hpath : normalizePath cfg.path ≠ "/health")
    (sessions : List (String × Session)) (hdr : Option String)
    (body : McpBody) (m msg : String) (hm : m = "GET" ∨ m = "DELETE")
    (hact : ¬(sidTruthy hdr = true ∧ hasSession sessions (hdr.getD "") = true))
    (hinit : ¬(sidTruthy hdr = false ∧ isInitializeRequest body = true)) :
    handle cfg sessions ⟨some (normalizePath cfg.path), some "POST", hdr, body⟩
      = .respond 400
          (.jsonRpcError (-32000) "Bad Request: missing valid MCP session")
    ∧ handle cfg sessions ⟨some (normalizePath cfg.path), some m, hdr, body⟩
      = .respond 400 (.text "Invalid or missing MCP session ID")
    ∧ isErrorEnvelope
        (.jsonRpcError (-32000) "Bad Request: missing valid MCP session") = true
    ∧ isErrorEnvelope (.text "Invalid or missing MCP session ID") = false
    ∧ catchInternalError false msg = some (500, .jsonRpcError (-32603) msg)
    ∧ catchInternalError true msg = none :=
  ⟨handle_post_reject cfg hpath sessions hdr body hact hinit,
   handle_stream_reject cfg hpath sessions m hm hdr body hact,
   rfl, rfl, rfl, rfl⟩

/-- Witness for the amended C7 with no session header. -/
theorem C7_amended_witness :
    handle ⟨"127.0.0.1", 8080, "/mcp"⟩ []
        ⟨some (normalizePath "/mcp"), some "POST", none, McpBody.otherReq⟩
      = .respond 400
          (.jsonRpcError (-32000) "Bad Request: missing valid MCP session")
    ∧ handle ⟨"127.0.0.1", 8080, "/mcp"⟩ []
        ⟨some (normalizePath "/mcp"), some "GET", none, McpBody.otherReq⟩
      = .respond 400 (.text "Invalid or missing MCP session ID") := by
  have h := C7_amended_error_envelopes ⟨"127.0.0.1", 8080, "/mcp"⟩ (by decide)
    [] none McpBody.otherReq "GET" "boom" (Or.inl rfl) (by decide) (by decide)
  exact ⟨h.1, h.2.1⟩

/-- Claim C8: the port guard accepts exactly the integers in [1, 65535];
every other value — including 0, -1, 65536 and NaN — makes both variants
throw with no action performed: no upstream connect, no HTTP server
created, no listener bound. -/
theorem C8_port_validation (port : JsNum) (connectError : Option String)
    (save : Bool) :
    (portRejected port = false
      ↔ ∃ k : Int, port = JsNum.int k ∧ 1 ≤ k ∧ k ≤ 65535)
    ∧ (portRejected port = true →
        startupMcp port connectError = (.invalidPort, [])
        ∧ startupTypes port save connectError = (.invalidPort, []))
    ∧ (portRejected port = false →
        (startupMcp port connectError).1 ≠ StartupOutcome.invalidPort
        ∧ (startupTypes port save connectError).1 ≠ StartupOutcome.invalidPort)
    ∧ portRejected JsNum.nan = true
    ∧ portRejected (JsNum.int 0) = true
    ∧ portRejected (JsNum.int (-1)) = true
    ∧ portRejected (JsNum.int 65536) = true := by
  refine ⟨?_, ?_, ?_, rfl, by decide, by decide, by decide⟩
  · cases port with
    | int k =>
        simp only [portRejected, isIntegerJs, jsLtLit, jsGtLit]
        constructor
        · intro h
          simp only [Bool.or_eq_false_iff, decide_eq_false_iff_not,
            Bool.not_eq_false] at h
          exact ⟨k, rfl, by omega, by omega⟩
        · rintro ⟨k', hk, h1, h2⟩
          cases hk
          simp [Bool.or_eq_false_iff, decide_eq_false_iff_not]
          omega
    | nan => simp [portRejected, isIntegerJs]
  · intro h
    exact ⟨by simp [startupMcp, h], by simp [startupTypes, h]⟩
  · intro h
    cases connectError with
    | none =>
        exact ⟨by simp [startupMcp, h], by simp [startupTypes, h]⟩
    | some d =>
        exact ⟨by simp [startupMcp, h], by simp [startupTypes, h]⟩

/-- Witness for C8: NaN (from a non-integer string) is rejected with no
startup action, and a valid port is accepted. -/
theorem C8_witness :
    startupMcp JsNum.nan none = (.invalidPort, [])
    ∧ startupTypes JsNum.nan false none = (.invalidPort, [])
    ∧ portRejected (JsNum.int 8080) = false := by
  have h := C8_port_validation JsNum.nan none false
  have h2 := (C8_port_validation (JsNum.int 8080) none false).1
  exact ⟨(h.2.1 rfl).1, (h.2.1 rfl).2, h2.2 ⟨8080, rfl, by decide, by decide⟩⟩

/-- Claim C9: a request whose path is `/health` is answered 200 with the
health payload built only from the endpoint, identically in every process
state — whatever sessions exist and after any sequence of asynchronous
upstream channel errors, which touch only the error log. -/
theorem C9_health_independent_of_backend (cfg : BridgeConfig)
    (st : BridgeProcessState) (errs : List String) (m hdr : Option String)
    (body : McpBody) :
    handleHttp cfg (errs.foldl onUpstreamError st)
        ⟨some "/health", m, hdr, body⟩
      = .respond 200 (.healthJson (endpointUrl cfg))
    ∧ handleHttp cfg st ⟨some "/health", m, hdr, body⟩
      = .respond 200 (.healthJson (endpointUrl cfg))
    ∧ (errs.foldl onUpstreamError st).sessions = st.sessions :=
  ⟨handle_health cfg _ m hdr body, handle_health cfg _ m hdr body,
   sessions_foldl_onUpstreamError errs st⟩

/-- Claim C10: the `/health` path is matched before the method or body is
inspected, so a request of any method to `/health` gets the 200 health
response and is neither answered 405 nor routed to a session. -/
theorem C10_health_matched_before_method (cfg : BridgeConfig)
    (sessions : List (String × Session)) (m hdr : Option String)
    (body : McpBody) :
    handle cfg sessions ⟨some "/health", m, hdr, body⟩
      = .respond 200 (.healthJson (endpointUrl cfg))
    ∧ isRoutedToSession (handle cfg sessions ⟨some "/health", m, hdr, body⟩)
      = false
    ∧ statusOf (handle cfg sessions ⟨some "/health", m, hdr, body⟩)
      = some 200 := by
  have h := handle_health cfg sessions m hdr body
  rw [h]
  exact ⟨rfl, rfl, rfl⟩

end XcodeBridge
